import Mathlib

/-!
# Verification of the 104 job-search FastAPI service

Shallow embedding of `src/integrated_solution.py` (the service implementation;
`src/main.py` is a thin proxy around the same endpoints).

Conventions of the embedding:
* Outbound HTTP is modelled by oracle functions passed as parameters.
  A search-page request is `fetchPage : String → Nat → Except String (List Listing)`:
  `Except.error e` models a transport failure, a non-2xx status
  (`response.raise_for_status()`) or a JSON-parse failure — all of which raise in
  the Python code; `Except.ok l` models a parsed body whose `data.list` is `l`
  (a missing `data` or `list` key yields `Except.ok []`, matching
  `data.get("data", {}).get("list", [])`).
* Python strings are modelled as `List Char` where indexing matters (both are
  sequences of Unicode code points), and as `String` elsewhere.
* Python's truncating slice arithmetic `max(0, a - b)` coincides with `Nat`
  subtraction.
-/

namespace FastApi104

/-- One listing object of `data.list` as returned by the upstream search endpoint.
`linkJob` is the value at the nested path `link.job` when every segment is present
(`job.get("link", {}).get("job", ...)`); `jobNo` is the flat `jobNo` field. -/
structure Listing where
  jobName : Option String
  custName : Option String
  linkJob : Option String
  jobNo : Option String
deriving DecidableEq

/-- The record class `JobResult` of `integrated_solution.py` (lines 35-43):
`description` starts out as `""` in `__init__`. -/
structure JobResult where
  title : String
  company : String
  link : String
  description : String
deriving DecidableEq

/-- The value returned by `get_job_details` (lines 45-69): the Python function
returns a dict that either carries the extracted fields (success) or a single
`"error"` key (any exception). -/
inductive DetailResult where
  | ok (description requirements : String)
  | error (msg : String)
deriving DecidableEq

/-- URL normalization at lines 47-48: a protocol-relative `//…` URL gets the
`https:` scheme prepended. -/
def normalizeUrl (u : String) : String :=
  if u.startsWith "//" then "https:" ++ u else u

/-- Job-code extraction at line 50: `job_url.split('job/')[-1].split('?')[0]`,
i.e. the last piece after splitting on `job/`, truncated at the first `?`. -/
def jobCode (u : String) : String :=
  ((u.splitOn "job/").getLastD u).takeWhile (fun c => c ≠ '?')

/-- The detail-endpoint template of line 51. -/
def detailApiUrl (code : String) : String :=
  "https://www.104.com.tw/job/ajax/content/" ++ code

/-- The parsed JSON body of a successful detail response: `jobDescription` is the
value at `data.jobDetail.jobDescription` when every segment is present,
`acceptRoleDescription` the value at `data.condition.acceptRole.description`. -/
structure DetailJson where
  jobDescription : Option String
  acceptRoleDescription : Option String
deriving DecidableEq

/-- Model of `get_job_details` (lines 45-69), with the outbound GET abstracted as the
oracle `http` mapping the detail-API URL to a response.  On success each missing
path segment defaults to `""` (Python's chained `.get(…, {})….get(…, "")`);
on any exception the error text is returned in an error value. -/
def get_job_details (http : String → Except String DetailJson) (job_url : String) :
    DetailResult :=
  let u := normalizeUrl job_url
  match http (detailApiUrl (jobCode u)) with
  | .ok j => .ok (j.jobDescription.getD "") (j.acceptRoleDescription.getD "")
  | .error e => .error e

/-- Link extraction at line 106: `job.get("link", {}).get("job", "")` —
the nested `link.job` value, defaulting to `""` when absent. -/
def listingLink (job : Listing) : String := job.linkJob.getD ""

/-- Per-listing record construction, lines 102-119: defaulted title and company,
the extracted link, and a description that is filled in only when the detail
fetch succeeded (`if details and "error" not in details`). -/
def processListing (fd : String → DetailResult) (job : Listing) : JobResult :=
  { title := job.jobName.getD "無標題"
    company := job.custName.getD "未知公司"
    link := listingLink job
    description :=
      match fd (listingLink job) with
      | .ok d _ => d
      | .error _ => "" }

/-- Observable trace of one `search_104_jobs_core` run: the accumulated
`final_result`, the sequence of page numbers for which a search-page GET was
issued (in issue order), and the number of `time.sleep(1)` calls. -/
structure SearchTrace where
  records : List JobResult
  visited : List Nat
  sleeps : Nat
deriving DecidableEq

/-- The page loop of `search_104_jobs_core` (lines 89-127), by recursion on the
number of remaining pages (`remaining + 1` pages left means the page being
processed is `current` and `current < end_page ↔ remaining > 0`, the guard of
line 122).  A page whose fetch raises (`Except.error`) aborts the whole loop —
the `try` wrapping the `for` catches the exception outside the loop — after
which the accumulated state is returned unchanged. -/
def searchPages (fp : Nat → Except String (List Listing))
    (fd : String → DetailResult) :
    Nat → Nat → SearchTrace → SearchTrace
  | 0, _, st => st
  | remaining + 1, current, st =>
    let st1 : SearchTrace := { st with visited := st.visited ++ [current] }
    match fp current with
    | .error _ => st1
    | .ok listings =>
      let st2 : SearchTrace :=
        { st1 with records := st1.records ++ listings.map (processListing fd) }
      let st3 : SearchTrace :=
        if 0 < remaining then { st2 with sleeps := st2.sleeps + 1 } else st2
      searchPages fp fd remaining (current + 1) st3

/-- Model of `search_104_jobs_core(keyword, end_page)` (lines 71-128): iterates
`current_page` over `range(1, end_page + 1)` starting from the empty
`final_result`.  The page fetch is the oracle `fp keyword page`; the detail
fetch is the oracle `fd link` (in the code, `get_job_details`). -/
def search_104_jobs_core (fp : String → Nat → Except String (List Listing))
    (fd : String → DetailResult) (keyword : String) (end_page : Nat) : SearchTrace :=
  searchPages (fp keyword) fd end_page 1 { records := [], visited := [], sleeps := 0 }

/-- The pages a run starting at `current` with `n` pages left actually requests:
each iteration requests its page, and iteration continues only while fetches
succeed. -/
def visitedPages (fp : Nat → Except String (List Listing)) : Nat → Nat → List Nat
  | 0, _ => []
  | n + 1, current =>
    current ::
      (match fp current with
       | .error _ => []
       | .ok _ => visitedPages fp n (current + 1))

/-- The records a run starting at `current` with `n` pages left appends:
per-page listings mapped through `processListing`, concatenated in page order,
cut off at the first failing page. -/
def collectedRecords (fp : Nat → Except String (List Listing))
    (fd : String → DetailResult) : Nat → Nat → List JobResult
  | 0, _ => []
  | n + 1, current =>
    match fp current with
    | .error _ => []
    | .ok listings =>
      listings.map (processListing fd) ++ collectedRecords fp fd n (current + 1)

/-- The `time.sleep(1)` calls a run starting at `current` with `n` pages left
performs: one after each successfully processed page that is not the last. -/
def sleepCount (fp : Nat → Except String (List Listing)) : Nat → Nat → Nat
  | 0, _ => 0
  | n + 1, current =>
    match fp current with
    | .error _ => 0
    | .ok _ => (if 0 < n then 1 else 0) + sleepCount fp n (current + 1)

/-- Whether the page fetch for page `p` succeeds (no transport failure, 2xx
status, parseable JSON body). -/
def fetchOk (fp : Nat → Except String (List Listing)) (p : Nat) : Bool :=
  match fp p with
  | .ok _ => true
  | .error _ => false

/-- The `data.list` listings of page `p`, empty when the fetch failed. -/
def okListings (fp : Nat → Except String (List Listing)) (p : Nat) : List Listing :=
  match fp p with
  | .ok l => l
  | .error _ => []

theorem searchPages_visited (fp : Nat → Except String (List Listing))
    (fd : String → DetailResult) :
    ∀ n current st, (searchPages fp fd n current st).visited
      = st.visited ++ visitedPages fp n current := by
  intro n
  induction n with
  | zero => intro current st; simp [searchPages, visitedPages]
  | succ n ih =>
    intro current st
    simp only [searchPages, visitedPages]
    cases h : fp current with
    | error e => simp
    | ok listings =>
      by_cases hn : 0 < n
      · simp [hn, ih]
      · simp [hn, ih]

theorem searchPages_records (fp : Nat → Except String (List Listing))
    (fd : String → DetailResult) :
    ∀ n current st, (searchPages fp fd n current st).records
      = st.records ++ collectedRecords fp fd n current := by
  intro n
  induction n with
  | zero => intro current st; simp [searchPages, collectedRecords]
  | succ n ih =>
    intro current st
    simp only [searchPages, collectedRecords]
    cases h : fp current with
    | error e => simp
    | ok listings =>
      by_cases hn : 0 < n
      · simp [hn, ih]
      · simp [hn, ih]

theorem searchPages_sleeps (fp : Nat → Except String (List Listing))
    (fd : String → DetailResult) :
    ∀ n current st, (searchPages fp fd n current st).sleeps
      = st.sleeps + sleepCount fp n current := by
  intro n
  induction n with
  | zero => intro current st; simp [searchPages, sleepCount]
  | succ n ih =>
    intro current st
    simp only [searchPages, sleepCount]
    cases h : fp current with
    | error e => simp
    | ok listings =>
      by_cases hn : 0 < n
      · simp [hn, ih]; omega
      · simp [hn, ih]

theorem visitedPages_all_ok (fp : Nat → Except String (List Listing)) :
    ∀ n current, (∀ p, current ≤ p → p < current + n → fetchOk fp p = true) →
      visitedPages fp n current = List.range' current n := by
  intro n
  induction n with
  | zero => intro current _; simp [visitedPages]
  | succ n ih =>
    intro current h
    have hc : fetchOk fp current = true := h current le_rfl (by omega)
    simp only [visitedPages]
    cases hfp : fp current with
    | error e => simp [fetchOk, hfp] at hc
    | ok l =>
      rw [List.range'_succ]
      simp only [List.cons.injEq, true_and]
      exact ih (current + 1) (fun p hp1 hp2 => h p (by omega) (by omega))

theorem visitedPages_range' (fp : Nat → Except String (List Listing)) :
    ∀ n current, ∃ k, k ≤ n ∧ visitedPages fp n current = List.range' current k := by
  intro n
  induction n with
  | zero => intro current; exact ⟨0, le_rfl, by simp [visitedPages]⟩
  | succ n ih =>
    intro current
    simp only [visitedPages]
    cases hfp : fp current with
    | error e => exact ⟨1, by omega, by rw [List.range'_one]⟩
    | ok l =>
      obtain ⟨k, hk, hv⟩ := ih (current + 1)
      exact ⟨k + 1, by omega, by rw [List.range'_succ, hv]⟩

theorem visitedPages_first_fail (fp : Nat → Except String (List Listing)) :
    ∀ n current p, current ≤ p → p < current + n → fetchOk fp p = false →
      (∀ q, current ≤ q → q < p → fetchOk fp q = true) →
      visitedPages fp n current = List.range' current (p + 1 - current) := by
  intro n
  induction n with
  | zero => intro current p h1 h2 _ _; omega
  | succ n ih =>
    intro current p h1 h2 hfail hok
    simp only [visitedPages]
    by_cases hcp : current = p
    · subst hcp
      cases hfp : fp current with
      | error e =>
        have : current + 1 - current = 1 := by omega
        rw [this, List.range'_one]
      | ok l => simp [fetchOk, hfp] at hfail
    · have hlt : current < p := by omega
      have hc : fetchOk fp current = true := hok current le_rfl hlt
      cases hfp : fp current with
      | error e => simp [fetchOk, hfp] at hc
      | ok l =>
        have hrec : visitedPages fp n (current + 1)
            = List.range' (current + 1) (p + 1 - (current + 1)) :=
          ih (current + 1) p (by omega) (by omega) hfail
            (fun q hq1 hq2 => hok q (by omega) hq2)
        have hn : p + 1 - current = (p + 1 - (current + 1)) + 1 := by omega
        rw [hrec, hn, List.range'_succ]

theorem collectedRecords_all_ok (fp : Nat → Except String (List Listing))
    (fd : String → DetailResult) :
    ∀ n current, (∀ p, current ≤ p → p < current + n → fetchOk fp p = true) →
      collectedRecords fp fd n current
        = (List.range' current n).flatMap
            (fun q => (okListings fp q).map (processListing fd)) := by
  intro n
  induction n with
  | zero => intro current _; simp [collectedRecords]
  | succ n ih =>
    intro current h
    have hc : fetchOk fp current = true := h current le_rfl (by omega)
    simp only [collectedRecords]
    cases hfp : fp current with
    | error e => simp [fetchOk, hfp] at hc
    | ok l =>
      rw [List.range'_succ, List.flatMap_cons,
        ih (current + 1) (fun p hp1 hp2 => h p (by omega) (by omega))]
      simp [okListings, hfp]

theorem collectedRecords_first_fail (fp : Nat → Except String (List Listing))
    (fd : String → DetailResult) :
    ∀ n current p, current ≤ p → p < current + n → fetchOk fp p = false →
      (∀ q, current ≤ q → q < p → fetchOk fp q = true) →
      collectedRecords fp fd n current
        = (List.range' current (p - current)).flatMap
            (fun q => (okListings fp q).map (processListing fd)) := by
  intro n
  induction n with
  | zero => intro current p h1 h2 _ _; omega
  | succ n ih =>
    intro current p h1 h2 hfail hok
    simp only [collectedRecords]
    by_cases hcp : current = p
    · subst hcp
      cases hfp : fp current with
      | error e => simp
      | ok l => simp [fetchOk, hfp] at hfail
    · have hlt : current < p := by omega
      have hc : fetchOk fp current = true := hok current le_rfl hlt
      cases hfp : fp current with
      | error e => simp [fetchOk, hfp] at hc
      | ok l =>
        have hrec := ih (current + 1) p (by omega) (by omega) hfail
          (fun q hq1 hq2 => hok q (by omega) hq2)
        have hn : p - current = (p - (current + 1)) + 1 := by omega
        rw [hrec, hn, List.range'_succ, List.flatMap_cons]
        simp [okListings, hfp]

theorem collectedRecords_mem (fp : Nat → Except String (List Listing))
    (fd : String → DetailResult) (job : Listing) :
    ∀ n current p, current ≤ p → p < current + n →
      (∀ q, current ≤ q → q ≤ p → fetchOk fp q = true) →
      job ∈ okListings fp p →
      processListing fd job ∈ collectedRecords fp fd n current := by
  intro n
  induction n with
  | zero => intro current p h1 h2 _ _; omega
  | succ n ih =>
    intro current p h1 h2 hok hmem
    have hc : fetchOk fp current = true := hok current le_rfl h1
    simp only [collectedRecords]
    cases hfp : fp current with
    | error e => simp [fetchOk, hfp] at hc
    | ok l =>
      rw [List.mem_append]
      by_cases hcp : current = p
      · subst hcp
        left
        refine List.mem_map.mpr ⟨job, ?_, rfl⟩
        simpa [okListings, hfp] using hmem
      · right
        exact ih (current + 1) p (by omega) (by omega)
          (fun q hq1 hq2 => hok q (by omega) hq2) hmem

/-- A stub upstream page fetch that always fails (transport failure). -/
def failingFetch : String → Nat → Except String (List Listing) :=
  fun _ _ => .error "connection error"

/-- A stub detail fetch that always fails. -/
def stubDetailFail : String → DetailResult := fun _ => .error "timeout"

/-- Stub listing 1 of page 1 (spec scenario of §8). -/
def stubListing1 : Listing :=
  { jobName := some "後端工程師", custName := some "甲公司",
    linkJob := some "https://www.104.com.tw/job/aaa111", jobNo := some "aaa111" }

/-- Stub listing 2 of page 1. -/
def stubListing2 : Listing :=
  { jobName := some "資料工程師", custName := some "乙公司",
    linkJob := some "https://www.104.com.tw/job/bbb222", jobNo := some "bbb222" }

/-- Stub listing of page 2. -/
def stubListing3 : Listing :=
  { jobName := some "前端工程師", custName := some "丙公司",
    linkJob := some "https://www.104.com.tw/job/ccc333", jobNo := some "ccc333" }

def stubPage1 : List Listing := [stubListing1, stubListing2]

def stubPage2 : List Listing := [stubListing3]

/-- Stub upstream returning 2 listings on page 1 and 1 listing on page 2. -/
def stubFetchPage : String → Nat → Except String (List Listing) :=
  fun _ p => if p = 1 then .ok stubPage1 else if p = 2 then .ok stubPage2
    else .error "no such page"

/-- Stub upstream that fails with a non-2xx status on page 2. -/
def failAt2 : String → Nat → Except String (List Listing) :=
  fun _ p => if p = 2 then .error "HTTP 500" else .ok stubPage1

/-- C1, counterexample: with `end_page = 1` and an upstream failure at page 1,
`search_104_jobs_core` still issues exactly `1 = end_page` page requests, so the
claim's clause "when an upstream failure occurs it issues fewer page requests"
is false: a failure at the last page leaves the count equal to `end_page`. -/
theorem C1_counterexample :
    fetchOk (failingFetch "python") 1 = false
    ∧ (search_104_jobs_core failingFetch stubDetailFail "python" 1).visited = [1] := by
  exact ⟨rfl, rfl⟩

/-- C1 (amended): for every keyword and `end_page`, the aggregator issues exactly
`end_page` search-page requests when no upstream failure occurs, visiting pages
1 through `end_page` ascending with none skipped; when the first upstream failure
occurs at page `p` it issues exactly `p` requests (strictly fewer than `end_page`
only when `p < end_page`); in every case the requested pages are an ascending
contiguous block `1..k` with `k ≤ end_page` (never more than `end_page`). -/
theorem C1_amended (fp : String → Nat → Except String (List Listing))
    (fd : String → DetailResult) (keyword : String) (end_page : Nat) :
    ((∀ p, 1 ≤ p → p ≤ end_page → fetchOk (fp keyword) p = true) →
        (search_104_jobs_core fp fd keyword end_page).visited = List.range' 1 end_page)
    ∧ (∀ p, 1 ≤ p → p ≤ end_page → fetchOk (fp keyword) p = false →
        (∀ q, 1 ≤ q → q < p → fetchOk (fp keyword) q = true) →
        (search_104_jobs_core fp fd keyword end_page).visited = List.range' 1 p)
    ∧ (∃ k, k ≤ end_page ∧
        (search_104_jobs_core fp fd keyword end_page).visited = List.range' 1 k) := by
  unfold search_104_jobs_core
  refine ⟨?_, ?_, ?_⟩
  · intro h
    rw [searchPages_visited]
    simpa using visitedPages_all_ok (fp keyword) end_page 1
      (fun p hp1 hp2 => h p hp1 (by omega))
  · intro p hp1 hp2 hfail hok
    rw [searchPages_visited]
    have h := visitedPages_first_fail (fp keyword) end_page 1 p hp1 (by omega) hfail hok
    have hp : p + 1 - 1 = p := by omega
    rw [hp] at h
    simpa using h
  · obtain ⟨k, hk, hv⟩ := visitedPages_range' (fp keyword) end_page 1
    exact ⟨k, hk, by rw [searchPages_visited]; simpa using hv⟩

/-- Witness for C1 (amended) at a concrete failure-free input. -/
theorem C1_amended_witness :
    (search_104_jobs_core (fun _ _ => Except.ok ([] : List Listing)) stubDetailFail
        "python" 2).visited = List.range' 1 2 :=
  (C1_amended (fun _ _ => Except.ok []) stubDetailFail "python" 2).1 (fun _ _ _ => rfl)

/-- C2: if the fetch of page `p` fails (transport failure or non-2xx status) and
every earlier page succeeded, the aggregator abandons all remaining pages — it
requests exactly `p` pages — and returns the records accumulated from pages
`1..p-1` as its ordinary return value (the model's return type `SearchTrace`
has no error alternative, mirroring the `except` at line 125 that swallows the
exception and falls through to `return final_result`). -/
theorem C2_partial_result (fp : String → Nat → Except String (List Listing))
    (fd : String → DetailResult) (keyword : String) (end_page p : Nat)
    (hp1 : 1 ≤ p) (hp2 : p ≤ end_page)
    (hfail : fetchOk (fp keyword) p = false)
    (hok : ∀ q, 1 ≤ q → q < p → fetchOk (fp keyword) q = true) :
    (search_104_jobs_core fp fd keyword end_page).records
      = (List.range' 1 (p - 1)).flatMap
          (fun q => (okListings (fp keyword) q).map (processListing fd))
    ∧ (search_104_jobs_core fp fd keyword end_page).visited.length = p := by
  unfold search_104_jobs_core
  constructor
  · rw [searchPages_records]
    simpa using collectedRecords_first_fail (fp keyword) fd end_page 1 p hp1
      (by omega) hfail hok
  · rw [searchPages_visited]
    have h := visitedPages_first_fail (fp keyword) end_page 1 p hp1 (by omega) hfail hok
    have hp : p + 1 - 1 = p := by omega
    rw [hp] at h
    simp [h]

/-- Witness for C2 at a concrete input: upstream fails at page 2 of 3. -/
theorem C2_partial_result_witness :
    (search_104_jobs_core failAt2 stubDetailFail "python" 3).records
      = (List.range' 1 1).flatMap
          (fun q => (okListings (failAt2 "python") q).map (processListing stubDetailFail))
    ∧ (search_104_jobs_core failAt2 stubDetailFail "python" 3).visited.length = 2 :=
  C2_partial_result failAt2 stubDetailFail "python" 3 2 (by omega) (by omega) rfl
    (fun q h1 h2 => by
      have hq : q = 1 := by omega
      subst hq; rfl)

/-- C3: a listing whose detail fetch fails still yields a `JobRecord` in the
aggregator's result (lines 114-119: the record is appended regardless of the
`"error"` key check), and that record's description is the empty string — a
detail-fetch failure never drops the record nor aborts the page. -/
theorem C3_detail_failure_keeps_record
    (fp : String → Nat → Except String (List Listing)) (fd : String → DetailResult)
    (keyword : String) (end_page p : Nat) (job : Listing) (e : String)
    (hp1 : 1 ≤ p) (hp2 : p ≤ end_page)
    (hok : ∀ q, 1 ≤ q → q ≤ p → fetchOk (fp keyword) q = true)
    (hmem : job ∈ okListings (fp keyword) p)
    (hdfail : fd (listingLink job) = .error e) :
    processListing fd job ∈ (search_104_jobs_core fp fd keyword end_page).records
    ∧ (processListing fd job).description = "" := by
  constructor
  · unfold search_104_jobs_core
    rw [searchPages_records]
    simp only [List.nil_append]
    exact collectedRecords_mem (fp keyword) fd job end_page 1 p hp1 (by omega) hok hmem
  · simp [processListing, hdfail]

/-- Witness for C3 at a concrete input: every detail fetch times out, the page-1
listing is still in the result with an empty description. -/
theorem C3_witness :
    processListing stubDetailFail stubListing1 ∈
      (search_104_jobs_core stubFetchPage stubDetailFail "python" 2).records
    ∧ (processListing stubDetailFail stubListing1).description = "" :=
  C3_detail_failure_keeps_record stubFetchPage stubDetailFail "python" 2 1 stubListing1
    "timeout" (by omega) (by omega)
    (fun q h1 h2 => by
      have hq : q = 1 := by omega
      subst hq; rfl)
    (by decide) rfl

/-- A listing in the alternative API shape: no nested `link.job`, only `jobNo`. -/
def shapeBListing : Listing :=
  { jobName := some "軟體工程師", custName := some "測試公司",
    linkJob := none, jobNo := some "123456" }

/-- C4, counterexample: for a listing without the nested `link.job` field the
code (line 106) does NOT synthesize `{base_url}/job/{jobNo}` — the synthesis of
line 105 is commented out — it falls back to the empty string.  There is no
discriminator check on the nested field. -/
theorem C4_counterexample :
    (processListing stubDetailFail shapeBListing).link = ""
    ∧ (processListing stubDetailFail shapeBListing).link
        ≠ "https://www.104.com.tw/job/123456" := by
  exact ⟨rfl, by decide⟩

/-- C4 (amended): the record's link is always taken from the nested `link.job`
field, defaulting to the empty string when any segment of that path is absent;
the `jobNo` field is never consulted (no synthesized `{base_url}/job/{jobNo}`
link, no API-shape discriminator). -/
theorem C4_amended (fd : String → DetailResult) (job : Listing) :
    (∀ l, job.linkJob = some l → (processListing fd job).link = l)
    ∧ (job.linkJob = none →
        (processListing fd job).link = ""
        ∧ ∀ n, processListing fd { job with jobNo := n } = processListing fd job) := by
  constructor
  · intro l hl
    simp [processListing, listingLink, hl]
  · intro hn
    exact ⟨by simp [processListing, listingLink, hn], fun n => rfl⟩

/-- Witness for C4 (amended) at the concrete shape-B listing. -/
theorem C4_amended_witness :
    (processListing stubDetailFail shapeBListing).link = ""
    ∧ processListing stubDetailFail { shapeBListing with jobNo := some "999" }
        = processListing stubDetailFail shapeBListing :=
  ⟨((C4_amended stubDetailFail shapeBListing).2 rfl).1,
   ((C4_amended stubDetailFail shapeBListing).2 rfl).2 (some "999")⟩

/-- C5: `search("python", 2)` against the stub upstream (2 listings on page 1,
1 on page 2) yields exactly 3 records, in page-then-listing order (the
concatenation of the per-page listings mapped through `processListing`), and the
inter-page `time.sleep(1)` runs exactly once (only after page 1, since the
guard `current_page < end_page` at line 122 fails at page 2). -/
theorem C5_scenario :
    (search_104_jobs_core stubFetchPage stubDetailFail "python" 2).records
      = (stubPage1 ++ stubPage2).map (processListing stubDetailFail)
    ∧ (search_104_jobs_core stubFetchPage stubDetailFail "python" 2).records.length = 3
    ∧ (search_104_jobs_core stubFetchPage stubDetailFail "python" 2).sleeps = 1 := by
  refine ⟨rfl, rfl, rfl⟩

/-- Character-wise ASCII lowering with `Char.toLower`.  Python's `str.lower()`
is the full Unicode case mapping — on some inputs it differs (`É` lowers, `İ`
expands to two code points) — so this function is NOT a model of `str.lower` in
general; it coincides with it exactly on strings whose characters are ASCII or
uncased (such as CJK text), and it is used below only in such situations: the
fixed vectorstore corpus, whose lowered alphabet no other character lowers
into, and concrete ASCII instantiations.  Where a claim quantifies over all
inputs, the lowering function is a parameter instead. -/
def strLower (s : List Char) : List Char := s.map Char.toLower

/-- Python `hay.find(needle)` restricted to its non-negative outcomes:
the least index at which `needle` occurs as a contiguous substring of `hay`,
`none` when absent (Python returns `-1`).  `hay.find("") = 0`, as in Python. -/
def findSub (hay needle : List Char) : Option Nat :=
  if needle.isPrefixOf hay then some 0
  else
    match hay with
    | [] => none
    | _ :: t => (findSub t needle).map (fun i => i + 1)

/-- Python `needle in hay` for strings: substring containment. -/
def containsSub (hay needle : List Char) : Bool := (findSub hay needle).isSome

/-- The `"..."` marker appended/prepended when the context is clipped. -/
def ellipsis : List Char := "...".toList

/-- The found-case context of `simple_document_search` (lines 157-170):
slice `content[max(0, pos-150) : min(len(content), pos+len(query)+150)]`, with a
leading `"..."` when clipped at the left and a trailing `"..."` when clipped at
the right.  `Nat` subtraction gives Python's `max(0, pos - 150)`. -/
def contextWindow (query content : List Char) (pos : Nat) : List Char :=
  let start := pos - 150
  let stop := min content.length (pos + query.length + 150)
  let ctx := (content.drop start).take (stop - start)
  let ctx2 := if 0 < start then ellipsis ++ ctx else ctx
  if stop < content.length then ctx2 ++ ellipsis else ctx2

/-- The context computation of `simple_document_search` (lines 156-173): the
window around the first match of the lowered query in the lowered content when
found, otherwise the first 300 characters with `"..."` when truncated.  The
lowering function (Python's full-Unicode, possibly length-changing
`str.lower`) is a parameter of the model; the match offset `pos` is an index
into the LOWERED text while the window is sliced from the original text,
exactly as in the source. -/
def docContext (lower : List Char → List Char) (query content : List Char) :
    List Char :=
  match findSub (lower content) (lower query) with
  | some pos => contextWindow query content pos
  | none => if 300 < content.length then content.take 300 ++ ellipsis else content

/-- The result dict of `simple_document_search` (lines 175-180). -/
structure DocSearchResult where
  query : List Char
  found : Bool
  answer : List Char
  context : List Char
deriving DecidableEq

/-- The pure core of `simple_document_search` (lines 152-180), operating on the
already-decoded text: case-insensitive keyword matching
(`query.lower() in content.lower()`, `content.lower().find(query.lower())`)
and context extraction.  `lower` abstracts Python's `str.lower`, whose full
Unicode case mapping (context-sensitive, possibly length-changing) is not
reproduced here; the theorems below hold for every lowering function, except
where an explicit character-wise-action hypothesis is stated. -/
def simple_document_search_core (lower : List Char → List Char)
    (query content : List Char) : DocSearchResult :=
  let found := containsSub (lower content) (lower query)
  { query := query
    found := found
    answer :=
      (if found then "文檔中找到查詢詞: " else "文檔中未找到查詢詞: ").toList ++ query
    context := docContext lower query content }

theorem isPrefixOf_take (needle : List Char) :
    ∀ hay, needle.isPrefixOf hay = true →
      hay.take needle.length = needle ∧ needle.length ≤ hay.length := by
  induction needle with
  | nil => intro hay _; simp
  | cons a as ih =>
    intro hay h
    cases hay with
    | nil => simp [List.isPrefixOf] at h
    | cons b bs =>
      rw [List.isPrefixOf] at h
      simp only [Bool.and_eq_true, beq_iff_eq] at h
      obtain ⟨hab, hrest⟩ := h
      obtain ⟨h1, h2⟩ := ih bs hrest
      subst hab
      constructor
      · rw [List.length_cons, List.take_succ_cons, h1]
      · rw [List.length_cons, List.length_cons]
        omega

theorem findSub_drop (needle : List Char) :
    ∀ hay pos, findSub hay needle = some pos →
      needle.isPrefixOf (hay.drop pos) = true := by
  intro hay
  induction hay with
  | nil =>
    intro pos h
    rw [findSub] at h
    split at h
    · next hp => cases h; simpa using hp
    · simp at h
  | cons c t ih =>
    intro pos h
    rw [findSub] at h
    split at h
    · next hp => cases h; simpa using hp
    · next hp =>
      simp only [Option.map_eq_some'] at h
      obtain ⟨i, hi, rfl⟩ := h
      simpa using ih i hi

theorem findSub_pos_le (needle : List Char) :
    ∀ hay pos, findSub hay needle = some pos → pos ≤ hay.length := by
  intro hay
  induction hay with
  | nil =>
    intro pos h
    rw [findSub] at h
    split at h
    · cases h; simp
    · simp at h
  | cons c t ih =>
    intro pos h
    rw [findSub] at h
    split at h
    · cases h; simp
    · simp only [Option.map_eq_some'] at h
      obtain ⟨i, hi, rfl⟩ := h
      have := ih i hi
      simp only [List.length_cons]
      omega

theorem findSub_add_le (needle hay : List Char) (pos : Nat)
    (h : findSub hay needle = some pos) : pos + needle.length ≤ hay.length := by
  have h1 := findSub_pos_le needle hay pos h
  have h2 := (isPrefixOf_take needle (hay.drop pos) (findSub_drop needle hay pos h)).2
  rw [List.length_drop] at h2
  omega

theorem take_drop_slice (xs : List Char) (a b c : Nat) (hab : a ≤ b) (hbc : b ≤ c) :
    (xs.drop a).take (c - a)
      = (xs.drop a).take (b - a) ++ (xs.drop b).take (c - b) := by
  have h1 : c - a = (b - a) + (c - b) := by omega
  have h2 : xs.drop b = (xs.drop a).drop (b - a) := by
    rw [List.drop_drop]
    congr 1
    omega
  rw [h1, List.take_add, h2]

theorem contextWindow_eq (query content : List Char) (pos : Nat) :
    contextWindow query content pos
      = (if 0 < pos - 150 then ellipsis else [])
        ++ (content.drop (pos - 150)).take
              (min content.length (pos + query.length + 150) - (pos - 150))
        ++ (if min content.length (pos + query.length + 150) < content.length then
              ellipsis else []) := by
  unfold contextWindow
  dsimp only
  split_ifs <;> simp [List.append_assoc]

/-- C6, counterexample: the match is case-insensitive (`content.lower()`), but
the context is sliced from the original text, so the claim's clause "the context
always contains the literal query substring" fails: for content `"Python"` and
query `"python"` the query occurs case-insensitively, `found` is true, yet the
returned context `"Python"` does not contain `"python"` as a literal substring.
On these all-ASCII strings Python's `str.lower` acts exactly as character-wise
`Char.toLower`, so instantiating the lowering parameter with `strLower` is
faithful at this input. -/
theorem C6_counterexample :
    (simple_document_search_core strLower ("python".toList) ("Python".toList)).found
      = true
    ∧ containsSub
        (simple_document_search_core strLower ("python".toList) ("Python".toList)).context
        ("python".toList) = false := by
  exact ⟨by decide, by decide⟩

/-- C6 (amended): for every lowering function (abstracting Python's
full-Unicode `str.lower`), every document and query: if the lowered query
occurs in the lowered document at first match offset `pos`, the matcher reports
`found = true` and returns the window of up to 150 characters before and 150
after `pos` (plus the query length) sliced from the ORIGINAL text and clipped
to its bounds, with ellipsis markers when clipped, and the context length is
bounded by `2×150 + len(query)` plus two ellipsis markers.  When the lowering
acts character-wise on this document and query (no length-changing case
mapping — e.g. ASCII text), the context moreover contains the matched
occurrence: the document substring at `pos` that equals the query up to case
(not necessarily the literal query).  Without that alignment the containment
can fail (see `lowerExpansion_empty_context`).  If the query does not occur,
the context is the first 300 characters, with an ellipsis marker exactly when
truncated. -/
theorem C6_amended (lower : List Char → List Char) (query content : List Char) :
    ((∀ pos, findSub (lower content) (lower query) = some pos →
        (simple_document_search_core lower query content).found = true
        ∧ (simple_document_search_core lower query content).context
            = contextWindow query content pos
        ∧ (simple_document_search_core lower query content).context.length
            ≤ 2 * 150 + query.length + 2 * ellipsis.length)
      ∧ (findSub (lower content) (lower query) = none →
          (simple_document_search_core lower query content).found = false
          ∧ (content.length ≤ 300 →
              (simple_document_search_core lower query content).context = content)
          ∧ (300 < content.length →
              (simple_document_search_core lower query content).context
                = content.take 300 ++ ellipsis)))
    ∧ (∀ f : Char → Char, lower content = content.map f →
        lower query = query.map f →
        ∀ pos, findSub (lower content) (lower query) = some pos →
          ((content.drop pos).take query.length).map f = lower query
          ∧ ∃ l r, (simple_document_search_core lower query content).context
              = l ++ (content.drop pos).take query.length ++ r) := by
  constructor
  · constructor
    · intro pos hpos
      have hfound : (simple_document_search_core lower query content).found = true := by
        simp [simple_document_search_core, containsSub, hpos]
      have hctx : (simple_document_search_core lower query content).context
          = contextWindow query content pos := by
        simp [simple_document_search_core, docContext, hpos]
      refine ⟨hfound, hctx, ?_⟩
      rw [hctx, contextWindow_eq]
      have hlen1 : ((content.drop (pos - 150)).take
          (min content.length (pos + query.length + 150) - (pos - 150))).length
          ≤ query.length + 300 := by
        have := List.length_take_le
          (min content.length (pos + query.length + 150) - (pos - 150))
          (content.drop (pos - 150))
        omega
      have hpre : (if 0 < pos - 150 then ellipsis else []).length ≤ ellipsis.length := by
        split <;> simp
      have hpost : (if min content.length (pos + query.length + 150) < content.length then
          ellipsis else []).length ≤ ellipsis.length := by
        split <;> simp
      simp only [List.length_append]
      omega
    · intro hnone
      refine ⟨?_, ?_, ?_⟩
      · simp [simple_document_search_core, containsSub, hnone]
      · intro hle
        have hnotgt : ¬ 300 < content.length := by omega
        simp [simple_document_search_core, docContext, hnone, hnotgt]
      · intro hgt
        simp [simple_document_search_core, docContext, hnone, hgt]
  · intro f hfc hfq pos hpos
    have hql : (lower query).length = query.length := by rw [hfq, List.length_map]
    have hcl : (lower content).length = content.length := by rw [hfc, List.length_map]
    have h0 := findSub_add_le (lower query) (lower content) pos hpos
    rw [hql, hcl] at h0
    have hctx : (simple_document_search_core lower query content).context
        = contextWindow query content pos := by
      simp [simple_document_search_core, docContext, hpos]
    have hslice : ((content.drop pos).take query.length).map f = lower query := by
      have hpref := findSub_drop (lower query) (lower content) pos hpos
      have htake := (isPrefixOf_take (lower query) ((lower content).drop pos) hpref).1
      rw [hql] at htake
      calc ((content.drop pos).take query.length).map f
          = ((lower content).drop pos).take query.length := by
            rw [hfc]
            simp [List.map_take, List.map_drop]
        _ = lower query := htake
    have hwin : (content.drop (pos - 150)).take
          (min content.length (pos + query.length + 150) - (pos - 150))
        = (content.drop (pos - 150)).take (pos - (pos - 150))
          ++ ((content.drop pos).take query.length
          ++ (content.drop (pos + query.length)).take
              (min content.length (pos + query.length + 150) - (pos + query.length))) := by
      have e1 := take_drop_slice content (pos - 150) pos
        (min content.length (pos + query.length + 150)) (by omega) (by omega)
      have e2 := take_drop_slice content pos (pos + query.length)
        (min content.length (pos + query.length + 150)) (by omega) (by omega)
      have e3 : pos + query.length - pos = query.length := by omega
      rw [e1, e2, e3]
    refine ⟨hslice,
      (if 0 < pos - 150 then ellipsis else [])
        ++ (content.drop (pos - 150)).take (pos - (pos - 150)),
      (content.drop (pos + query.length)).take
          (min content.length (pos + query.length + 150) - (pos + query.length))
        ++ (if min content.length (pos + query.length + 150) < content.length then
              ellipsis else []), ?_⟩
    rw [hctx, contextWindow_eq, hwin]
    simp [List.append_assoc]

/-- Witness for C6 (amended) at a concrete found-case input, with the lowering
instantiated by `strLower` (which agrees with Python's `str.lower` on these
ASCII strings) and the character-wise-action hypotheses discharged by `rfl`. -/
theorem C6_amended_witness :
    (simple_document_search_core strLower ("api".toList) ("an api call".toList)).found
      = true
    ∧ (∃ l r,
        (simple_document_search_core strLower ("api".toList) ("an api call".toList)).context
          = l ++ (("an api call".toList).drop 3).take ("api".toList).length ++ r)
    ∧ (simple_document_search_core strLower ("api".toList) ("an api call".toList)).context.length
        ≤ 2 * 150 + ("api".toList).length + 2 * ellipsis.length := by
  have h := C6_amended strLower ("api".toList) ("an api call".toList)
  have h1 := h.1.1 3 (by decide)
  have h2 := h.2 Char.toLower rfl rfl 3 (by decide)
  exact ⟨h1.1, h2.2, h1.2.2⟩

/-- Demonstration that the character-wise-action hypothesis in C6 (amended) is
necessary: Python's `str.lower` expands `İ` (U+0130) to `i` followed by
U+0307, shifting all later offsets in the lowered text.  `dottedLower`
reproduces `str.lower` exactly on strings made of `İ` and ASCII letters. -/
def dottedLower : List Char → List Char :=
  fun s => s.flatMap (fun c =>
    if c = 'İ' then ['i', Char.ofNat 0x0307] else [Char.toLower c])

set_option maxRecDepth 4000 in
/-- With 200 copies of `İ` before the sole `x`, the program finds the query at
offset 400 of the lowered text, slices `content[250:201]` (empty), and returns
the bare leading ellipsis as context: `found` is true yet the context contains
no occurrence of the query at all. -/
theorem lowerExpansion_empty_context :
    (simple_document_search_core dottedLower ("x".toList)
        (List.replicate 200 'İ' ++ "x".toList)).found = true
    ∧ (simple_document_search_core dottedLower ("x".toList)
        (List.replicate 200 'İ' ++ "x".toList)).context = ellipsis := by
  exact ⟨by decide, by decide⟩

/-- The hardcoded two-sentence corpus of `simple_vectorstore_search`
(lines 188-191). -/
def sample_texts : List (List Char) :=
  ["LangChain 是一個用於開發由語言模型驅動的應用程序的框架。".toList,
   "它能讓你建立起語言模型與其他資料來源的連結。".toList]

/-- The result dict of `simple_vectorstore_search` (lines 196-200). -/
structure VectorSearchResult where
  query : List Char
  answer : List Char
  matched_sources : List (List Char)
deriving DecidableEq

/-- Model of `simple_vectorstore_search` (lines 185-200): case-insensitive substring
filter (`query.lower() in text.lower()`) over the fixed corpus; the answer
string reports the match count. -/
def simple_vectorstore_search (query : List Char) : VectorSearchResult :=
  let matched := sample_texts.filter (fun t => containsSub (strLower t) (strLower query))
  { query := query
    answer := "找到 ".toList ++ (toString matched.length).toList ++ " 個相關結果".toList
    matched_sources := matched }

/-- C8, counterexample: the second corpus sentence contains no occurrence of
"langchain" in any case, so the query "langchain" matches only the first
sentence — the claim's "returns both corpus sentences" is false. -/
theorem C8_counterexample :
    (simple_vectorstore_search ("langchain".toList)).matched_sources
      = ["LangChain 是一個用於開發由語言模型驅動的應用程序的框架。".toList]
    ∧ (simple_vectorstore_search ("langchain".toList)).matched_sources
        ≠ sample_texts := by
  exact ⟨by decide, by decide⟩

/-- C8 (amended): the Toy Vector Matcher returns, for any query, exactly those
entries of the fixed hardcoded two-sentence corpus that contain the query as a
case-insensitive substring; in particular the query "langchain" returns exactly
the first corpus sentence (the second contains no such occurrence). -/
theorem C8_amended (query : List Char) :
    (∀ t, t ∈ (simple_vectorstore_search query).matched_sources ↔
        (t ∈ sample_texts ∧ containsSub (strLower t) (strLower query) = true))
    ∧ (simple_vectorstore_search ("langchain".toList)).matched_sources
        = ["LangChain 是一個用於開發由語言模型驅動的應用程序的框架。".toList] := by
  constructor
  · intro t
    simp [simple_vectorstore_search, List.mem_filter]
  · decide

/-- Whether `b` is a UTF-8 continuation byte `0x80..0xBF`. -/
def isCont (b : Nat) : Bool := 0x80 ≤ b && b ≤ 0xBF

/-- Valid second byte after a 3-byte lead: excludes overlong (`E0 80..9F`) and
surrogate (`ED A0..BF`) sequences. -/
def cont2Ok (b1 b2 : Nat) : Bool :=
  if b1 = 0xE0 then 0xA0 ≤ b2 && b2 ≤ 0xBF
  else if b1 = 0xED then 0x80 ≤ b2 && b2 ≤ 0x9F
  else isCont b2

/-- Valid second byte after a 4-byte lead: excludes overlong (`F0 80..8F`) and
beyond-U+10FFFF (`F4 90..BF`) sequences. -/
def cont3Ok (b1 b2 : Nat) : Bool :=
  if b1 = 0xF0 then 0x90 ≤ b2 && b2 ≤ 0xBF
  else if b1 = 0xF4 then 0x80 ≤ b2 && b2 ≤ 0x8F
  else isCont b2

/-- Strict UTF-8 decoding (RFC 3629) of a byte sequence to its code-point
sequence, as performed by Python's `utf-8` codec in strict mode: `none` models a
raised `UnicodeDecodeError` (invalid lead byte `0x80..0xC1`/`0xF5..`, truncated
or invalid continuation, overlong form, surrogate, or value above U+10FFFF). -/
def decodeUtf8 : List Nat → Option (List Nat)
  | [] => some []
  | b1 :: t1 =>
    if b1 ≤ 0x7F then (decodeUtf8 t1).map (fun cs => b1 :: cs)
    else if 0xC2 ≤ b1 && b1 ≤ 0xDF then
      match t1 with
      | b2 :: t2 =>
        if isCont b2 then
          (decodeUtf8 t2).map (fun cs => ((b1 - 0xC0) * 0x40 + (b2 - 0x80)) :: cs)
        else none
      | [] => none
    else if 0xE0 ≤ b1 && b1 ≤ 0xEF then
      match t1 with
      | b2 :: b3 :: t3 =>
        if cont2Ok b1 b2 && isCont b3 then
          (decodeUtf8 t3).map (fun cs =>
            ((b1 - 0xE0) * 0x1000 + (b2 - 0x80) * 0x40 + (b3 - 0x80)) :: cs)
        else none
      | _ => none
    else if 0xF0 ≤ b1 && b1 ≤ 0xF4 then
      match t1 with
      | b2 :: b3 :: b4 :: t4 =>
        if cont3Ok b1 b2 && isCont b3 && isCont b4 then
          (decodeUtf8 t4).map (fun cs =>
            ((b1 - 0xF0) * 0x40000 + (b2 - 0x80) * 0x1000
              + (b3 - 0x80) * 0x40 + (b4 - 0x80)) :: cs)
        else none
      | _ => none
    else none

/-- The `latin-1` codec itself: total — every byte maps to the code point of
the same numeric value, so this decoder can never fail.  (The newline
translation that Python's text-mode `open` additionally performs on the decoded
text is a separate layer, applied in `decodeContent`.) -/
def decodeLatin1 (bs : List Nat) : List Nat := bs

/-- Universal-newline translation performed by text-mode `open(…, 'r', …)`
after decoding: each `"\r\n"` pair and each lone `"\r"` becomes `"\n"`
(code points 13, 10). -/
def universalNewlines : List Nat → List Nat
  | [] => []
  | [c] => if c = 13 then [10] else [c]
  | c :: c2 :: rest =>
    if c = 13 then
      if c2 = 10 then 10 :: universalNewlines rest
      else 10 :: universalNewlines (c2 :: rest)
    else c :: universalNewlines (c2 :: rest)

/-- The `for encoding in encodings: try … except UnicodeDecodeError` loop:
first succeeding decoder of the list, with the decoded text and the 0-based
index of the decoder that produced it. -/
def firstSuccess (ds : List (List Nat → Option (List Nat))) (bs : List Nat) :
    Option (List Nat × Nat) :=
  match ds with
  | [] => none
  | d :: rest =>
    match d bs with
    | some cs => some (cs, 0)
    | none => (firstSuccess rest bs).map (fun p => (p.1, p.2 + 1))

/-- The decoding step of `simple_document_search` (lines 133-150): attempts the
encodings `['utf-8', 'latin-1', 'cp950', 'big5']` in order with text-mode
`open(file_path, 'r', encoding=…)` — whose read applies universal-newline
translation to the decoded text — and, if every attempt failed
(`content is None`), re-reads the file in binary and decodes as UTF-8 with
invalid sequences replaced (`errors='replace'`, no newline translation).  The
`cp950` and `big5` codecs and the replacement decoder are parameters of the
model: the theorems below hold for every choice of them, because the loop never
consults them.  The second component records the strategy used (0 = utf-8,
1 = latin-1, 2 = cp950, 3 = big5, 4 = binary replacement fallback). -/
def decodeContent (cp950 big5 : List Nat → Option (List Nat))
    (repl : List Nat → List Nat) (bs : List Nat) : List Nat × Nat :=
  match firstSuccess [decodeUtf8, fun b => some (decodeLatin1 b), cp950, big5] bs with
  | some (cs, i) => (universalNewlines cs, i)
  | none => (repl bs, 4)

theorem decodeContent_eq (cp950 big5 : List Nat → Option (List Nat))
    (repl : List Nat → List Nat) (bs : List Nat) :
    decodeContent cp950 big5 repl bs
      = match decodeUtf8 bs with
        | some cs => (universalNewlines cs, 0)
        | none => (universalNewlines bs, 1) := by
  cases h : decodeUtf8 bs with
  | some cs => simp [decodeContent, firstSuccess, h]
  | none => simp [decodeContent, firstSuccess, h, decodeLatin1]

/-- C10: the encoding-fallback loop succeeds at the latin-1 attempt at the
latest, because latin-1 decodes every byte sequence without error; consequently
the cp950 and big5 attempts and the binary read-with-replacement branch are
unreachable — the result is independent of all three — and decoding is a total
function of the file bytes, using strategy index 0 (utf-8) or 1 (latin-1). -/
theorem C10_latin1_total (cp950 big5 cp950a big5a : List Nat → Option (List Nat))
    (repl repla : List Nat → List Nat) (bs : List Nat) :
    decodeContent cp950 big5 repl bs = decodeContent cp950a big5a repla bs
    ∧ (decodeContent cp950 big5 repl bs).2 ≤ 1 := by
  have h1 := decodeContent_eq cp950 big5 repl bs
  have h2 := decodeContent_eq cp950a big5a repla bs
  constructor
  · rw [h1, h2]
  · rw [h1]
    cases decodeUtf8 bs <;> simp

/-- The HTTP response of the `/document` endpoint: either the search-result
dict, or the `{"error": …, "detail": …}` payload produced by the `except`
handler (lines 220-222). -/
inductive DocResponse where
  | ok (r : DocSearchResult)
  | errorPayload (detail : List Char)
deriving DecidableEq

/-- Outcome of one `/document` request: the response, and whether the saved
upload file still exists in the working directory after the response returns. -/
structure DocEndpointOutcome where
  response : DocResponse
  tempFileExists : Bool
deriving DecidableEq

/-- Model of `process_document_query` (lines 202-222) as a function of its two possible
save-step failure points:
* `openFails` — `open(file_path, "wb")` raises before the file is created
  (e.g. an unusable filename): the `except` handler returns the error payload
  and no file was ever created;
* `writeFails` — `buffer.write(await file.read())` raises after `open` has
  already created the file: the exception propagates to the `except` handler,
  which returns the error payload without deleting the file — the cleanup of
  lines 215-217 sits inside the `try` body, not in a `finally` block.
On the non-failing path the file is saved, `simple_document_search` runs (its
own `try/except` returns a dict and never raises — the decode loop is total by
`C10`-style reasoning and the matching code raises nothing), and
`os.remove(file_path)` deletes the file before `return result`.  `lower`
abstracts Python's `str.lower`, as in `simple_document_search_core`. -/
def process_document_query (openFails writeFails : Bool)
    (cp950 big5 : List Nat → Option (List Nat)) (repl : List Nat → List Nat)
    (lower : List Char → List Char)
    (query : List Char) (fileBytes : List Nat) : DocEndpointOutcome :=
  if openFails then
    { response := .errorPayload ("open failed".toList), tempFileExists := false }
  else if writeFails then
    { response := .errorPayload ("read failed".toList), tempFileExists := true }
  else
    let content := ((decodeContent cp950 big5 repl fileBytes).1).map Char.ofNat
    { response := .ok (simple_document_search_core lower query content)
      tempFileExists := false }

/-- C9, counterexample: when reading/writing the upload fails after `open` has
created the file, the endpoint returns the error payload while the temp file is
left behind — the claim's "removed before the response returns, on every exit
path including error paths" is false. -/
theorem C9_counterexample :
    (process_document_query false true (fun _ => none) (fun _ => none)
        (fun b => b) strLower ("q".toList) []).tempFileExists = true := by
  rfl

/-- C9 (amended): the uploaded temp file is removed before the response returns
on the normal path, and no file is left behind by failures that occur before the
file is created; only a save-step failure after creation (a raising
`buffer.write(await file.read())`) leaves the temp file behind, because the
cleanup is not guarded by a `finally`/context manager. -/
theorem C9_amended (openFails writeFails : Bool)
    (cp950 big5 : List Nat → Option (List Nat)) (repl : List Nat → List Nat)
    (lower : List Char → List Char) (query : List Char) (fileBytes : List Nat)
    (h : openFails = true ∨ writeFails = false) :
    (process_document_query openFails writeFails cp950 big5 repl lower
        query fileBytes).tempFileExists = false := by
  cases h with
  | inl h1 => simp [process_document_query, h1]
  | inr h2 =>
    cases hob : openFails with
    | true => simp [process_document_query]
    | false => simp [process_document_query, h2]

/-- Witness for C9 (amended) on the normal path at concrete inputs. -/
theorem C9_amended_witness :
    (process_document_query false false (fun _ => none) (fun _ => none)
        (fun b => b) strLower ("q".toList) []).tempFileExists = false :=
  C9_amended false false (fun _ => none) (fun _ => none) (fun b => b)
    strLower ("q".toList) [] (Or.inr rfl)

end FastApi104
